import Mathlib

/-!
Shallow embedding of `src/parser/schema_parser/parser.rs` from the
log-surgeon-rust repository: the schema construction and validation core.

External collaborators are modelled as parameters:
* the regular-expression grammar parser (`RegexParser::parse_into_ast`)
  becomes a function `parse : String → Except Error α` over an opaque AST
  type `α`;
* the YAML document parser (`serde_yaml::from_str`) becomes a function
  `yamlLoad : String → Option (List (String × Value))`.

`serde_yaml::Value` is modelled by the inductive `Value`; the top-level
`HashMap<String, Value>` is modelled as an association list queried with
`List.lookup` (a hash map holds at most one binding per key, so first-match
lookup is faithful); `HashSet<u8>` becomes `Finset ℕ` and the cast
`c as u8` becomes `c.toNat % 256`.  The mutable `schemas` vector and
`delimiters` set of `load_from_kv_pairs` become explicit accumulator
arguments of the loop functions `pushTimestamps`, `pushVars` and
`insertDelimiters`.
-/

namespace LogSurgeon

/-- Model of `serde_yaml::Value`: dynamically typed YAML values. -/
inductive Value : Type where
  | null : Value
  | bool : Bool → Value
  | number : Int → Value
  | string : String → Value
  | sequence : List Value → Value
  | mapping : List (Value × Value) → Value

/-- Model of `crate::error_handling::Error` (the variants used by the schema
parser).  External error payloads (I/O diagnostics, YAML diagnostics) are
dropped since the code never inspects them. -/
inductive Error : Type where
  | IOError : Error
  | InvalidSchema : Error
  | MissingSchemaKey : String → Error
  | NoneASCIICharacters : Error
  | YamlParsingError : Error
  | RegexParsingError : Error
deriving DecidableEq

/-- Model of `TimestampSchema { regex: String, ast: Ast }`; the AST type is
an opaque parameter `α`. -/
structure TimestampSchema (α : Type) where
  regex : String
  ast : α
deriving DecidableEq

/-- Model of `VarSchema { name: String, regex: String, ast: Ast }`. -/
structure VarSchema (α : Type) where
  name : String
  regex : String
  ast : α
deriving DecidableEq

/-- Model of `enum Schema { Timestamp(TimestampSchema), Var(VarSchema) }`. -/
inductive Schema (α : Type) where
  | Timestamp : TimestampSchema α → Schema α
  | Var : VarSchema α → Schema α
deriving DecidableEq

/-- Model of `ParsedSchema { schemas: Vec<Schema>, delimiters: HashSet<u8> }`. -/
structure ParsedSchema (α : Type) where
  schemas : List (Schema α)
  delimiters : Finset ℕ
deriving DecidableEq

/-- Model of Rust `char::is_ascii`: the code point is at most `0x7F`. -/
def charIsAscii (c : Char) : Bool := c.toNat < 128

/-- `TimestampSchema::new`: runs the grammar parser on the pattern string and
propagates its error (`?`); on success stores the pattern and its AST. -/
def TimestampSchema.new (parse : String → Except Error α) (regex : String) :
    Except Error (TimestampSchema α) :=
  match parse regex with
  | Except.ok ast => Except.ok { regex := regex, ast := ast }
  | Except.error e => Except.error e

/-- `VarSchema::new`: runs the grammar parser on the pattern string and
propagates its error; on success stores the name, pattern and AST. -/
def VarSchema.new (parse : String → Except Error α) (name : String) (regex : String) :
    Except Error (VarSchema α) :=
  match parse regex with
  | Except.ok ast => Except.ok { name := name, regex := regex, ast := ast }
  | Except.error e => Except.error e

/-- `ParsedSchema::has_delimiter`: `false` for non-ASCII query characters,
otherwise membership of the byte cast of the character in the set. -/
def ParsedSchema.has_delimiter (p : ParsedSchema α) (delimiter : Char) : Bool :=
  if charIsAscii delimiter = false then false
  else decide ((delimiter.toNat % 256) ∈ p.delimiters)

/-- The constant `ParsedSchema::TIMESTAMP_KEY`. -/
def TIMESTAMP_KEY : String := "timestamp"

/-- The constant `ParsedSchema::VAR_KEY`. -/
def VAR_KEY : String := "variables"

/-- The constant `ParsedSchema::DELIMITER_EKY` (name kept from the source). -/
def DELIMITER_EKY : String := "delimiters"

/-- `ParsedSchema::get_key_value`: map lookup, `MissingSchemaKey` on absence. -/
def get_key_value (kv_map : List (String × Value)) (key : String) :
    Except Error Value :=
  match kv_map.lookup key with
  | some v => Except.ok v
  | none => Except.error (Error.MissingSchemaKey key)

/-- The timestamp loop of `load_from_kv_pairs`
(`sequence.iter().try_for_each(...)`): each element must be a string, whose
schema is pushed onto the accumulated `schemas` vector; a non-string element
aborts with `InvalidSchema`, a grammar-parse failure propagates. -/
def pushTimestamps (parse : String → Except Error α) (schemas : List (Schema α)) :
    List Value → Except Error (List (Schema α))
  | [] => Except.ok schemas
  | v :: rest =>
    match v with
    | Value.string s =>
      match TimestampSchema.new parse s with
      | Except.ok entry => pushTimestamps parse (schemas ++ [Schema.Timestamp entry]) rest
      | Except.error e => Except.error e
    | _ => Except.error Error.InvalidSchema

/-- The variables loop of `load_from_kv_pairs` (`for (key, value) in map`):
each pair must be string/string and its schema is pushed; anything else
aborts with `InvalidSchema`, a grammar-parse failure propagates. -/
def pushVars (parse : String → Except Error α) (schemas : List (Schema α)) :
    List (Value × Value) → Except Error (List (Schema α))
  | [] => Except.ok schemas
  | (key, value) :: rest =>
    match key, value with
    | Value.string name, Value.string regex =>
      match VarSchema.new parse name regex with
      | Except.ok entry => pushVars parse (schemas ++ [Schema.Var entry]) rest
      | Except.error e => Except.error e
    | _, _ => Except.error Error.InvalidSchema

/-- The delimiter loop of `load_from_kv_pairs`
(`for c in delimiter_str.chars()`): a non-ASCII character aborts with
`NoneASCIICharacters`; an ASCII character is inserted as its byte cast. -/
def insertDelimiters (delimiters : Finset ℕ) : List Char → Except Error (Finset ℕ)
  | [] => Except.ok delimiters
  | c :: rest =>
    if charIsAscii c = false then Except.error Error.NoneASCIICharacters
    else insertDelimiters (insert (c.toNat % 256) delimiters) rest

/-- `ParsedSchema::load_from_kv_pairs`: fetch and process the three sections
in order — timestamps (must be a sequence), variables (must be a mapping),
delimiters (must be a string) — short-circuiting on the first error. -/
def load_from_kv_pairs (parse : String → Except Error α)
    (kv_pairs : List (String × Value)) : Except Error (ParsedSchema α) :=
  match get_key_value kv_pairs TIMESTAMP_KEY with
  | Except.error e => Except.error e
  | Except.ok (Value.sequence seq) =>
    match pushTimestamps parse [] seq with
    | Except.error e => Except.error e
    | Except.ok schemas₁ =>
      match get_key_value kv_pairs VAR_KEY with
      | Except.error e => Except.error e
      | Except.ok (Value.mapping map) =>
        match pushVars parse schemas₁ map with
        | Except.error e => Except.error e
        | Except.ok schemas₂ =>
          match get_key_value kv_pairs DELIMITER_EKY with
          | Except.error e => Except.error e
          | Except.ok (Value.string delimiter_str) =>
            match insertDelimiters ∅ delimiter_str.data with
            | Except.error e => Except.error e
            | Except.ok delimiters =>
              Except.ok { schemas := schemas₂, delimiters := delimiters }
          | Except.ok _ => Except.error Error.InvalidSchema
      | Except.ok _ => Except.error Error.InvalidSchema
  | Except.ok _ => Except.error Error.InvalidSchema

/-- `ParsedSchema::parse_from_str`: run the external YAML parser
(`load_kv_pairs_from_yaml_content`), wrapping its failure in
`YamlParsingError`, then `load_from_kv_pairs`. -/
def parse_from_str (yamlLoad : String → Option (List (String × Value)))
    (parse : String → Except Error α) (yaml_content : String) :
    Except Error (ParsedSchema α) :=
  match yamlLoad yaml_content with
  | some kv_pairs => load_from_kv_pairs parse kv_pairs
  | none => Except.error Error.YamlParsingError

/-! ## Helper predicates used in the statements -/

/-- Bool test distinguishing `Value::String` from the other variants. -/
def Value.isString : Value → Bool
  | Value.string _ => true
  | _ => false

/-- Bool test distinguishing `Value::Sequence` from the other variants. -/
def Value.isSequence : Value → Bool
  | Value.sequence _ => true
  | _ => false

/-- Bool test distinguishing `Value::Mapping` from the other variants. -/
def Value.isMapping : Value → Bool
  | Value.mapping _ => true
  | _ => false

/-- The pattern string stored in a schema entry (the `regex` field of either
variant, as exposed by `get_regex`). -/
def Schema.patternOf : Schema α → String
  | Schema.Timestamp t => t.regex
  | Schema.Var v => v.regex

/-- `Schema::get_ast`: the AST stored in either variant. -/
def Schema.get_ast : Schema α → α
  | Schema.Timestamp t => t.ast
  | Schema.Var v => v.ast

/-- The entry `e` is exactly the timestamp entry built from source pattern
`s`: its pattern is `s` and its AST is the grammar parser's output on `s`. -/
def tsEntryOf (parse : String → Except Error α) (s : String) (e : Schema α) : Prop :=
  ∃ a, parse s = Except.ok a ∧ e = Schema.Timestamp ⟨s, a⟩

/-- The entry `e` is exactly the variable entry built from the source
name/pattern pair `p`. -/
def varEntryOf (parse : String → Except Error α) (p : String × String) (e : Schema α) : Prop :=
  ∃ a, parse p.2 = Except.ok a ∧ e = Schema.Var ⟨p.1, p.2, a⟩

/-- The entry stores a pattern together with the grammar parser's result on
that very pattern (the round-trip invariant). -/
def entryParsed (parse : String → Except Error α) (e : Schema α) : Prop :=
  parse (Schema.patternOf e) = Except.ok (Schema.get_ast e)

/-- The document's timestamp section is present, is a sequence of the strings
`ts`, and every one of them grammar-parses. -/
def tsSectionOk (parse : String → Except Error α) (kv : List (String × Value))
    (ts : List String) : Prop :=
  kv.lookup TIMESTAMP_KEY = some (Value.sequence (ts.map Value.string)) ∧
  ∀ s ∈ ts, ∃ a, parse s = Except.ok a

/-- The document's variables section is present, is a mapping whose pairs are
the string pairs `vars`, and every pattern grammar-parses. -/
def varSectionOk (parse : String → Except Error α) (kv : List (String × Value))
    (vars : List (String × String)) : Prop :=
  kv.lookup VAR_KEY =
    some (Value.mapping (vars.map (fun p => (Value.string p.1, Value.string p.2)))) ∧
  ∀ p ∈ vars, ∃ a, parse p.2 = Except.ok a

/-! ## Loop characterizations -/

theorem pushTimestamps_ok (parse : String → Except Error α) :
    ∀ (ts : List String) (acc : List (Schema α)),
      (∀ s ∈ ts, ∃ a, parse s = Except.ok a) →
      ∃ lts, pushTimestamps parse acc (ts.map Value.string) = Except.ok (acc ++ lts) ∧
        List.Forall₂ (tsEntryOf parse) ts lts := by
  intro ts
  induction ts with
  | nil => exact fun acc _ => ⟨[], by simp [pushTimestamps], List.Forall₂.nil⟩
  | cons s rest ih =>
    intro acc hp
    obtain ⟨a, ha⟩ := hp s (List.mem_cons_self s rest)
    obtain ⟨lts, hpush, hrel⟩ :=
      ih (acc ++ [Schema.Timestamp ⟨s, a⟩]) (fun x hx => hp x (List.mem_cons_of_mem _ hx))
    refine ⟨Schema.Timestamp ⟨s, a⟩ :: lts, ?_, List.Forall₂.cons ⟨a, ha, rfl⟩ hrel⟩
    simp only [List.map_cons, pushTimestamps, TimestampSchema.new, ha, hpush]
    simp

theorem pushVars_ok (parse : String → Except Error α) :
    ∀ (vars : List (String × String)) (acc : List (Schema α)),
      (∀ p ∈ vars, ∃ a, parse p.2 = Except.ok a) →
      ∃ lvs, pushVars parse acc
          (vars.map (fun p => (Value.string p.1, Value.string p.2))) =
          Except.ok (acc ++ lvs) ∧
        List.Forall₂ (varEntryOf parse) vars lvs := by
  intro vars
  induction vars with
  | nil => exact fun acc _ => ⟨[], by simp [pushVars], List.Forall₂.nil⟩
  | cons p rest ih =>
    intro acc hp
    obtain ⟨a, ha⟩ := hp p (List.mem_cons_self p rest)
    obtain ⟨lvs, hpush, hrel⟩ :=
      ih (acc ++ [Schema.Var ⟨p.1, p.2, a⟩]) (fun x hx => hp x (List.mem_cons_of_mem _ hx))
    refine ⟨Schema.Var ⟨p.1, p.2, a⟩ :: lvs, ?_, List.Forall₂.cons ⟨a, ha, rfl⟩ hrel⟩
    simp only [List.map_cons, pushVars, VarSchema.new, ha, hpush]
    simp

theorem insertDelimiters_ok :
    ∀ (cs : List Char) (acc : Finset ℕ),
      (∀ c ∈ cs, charIsAscii c = true) →
      insertDelimiters acc cs =
        Except.ok (acc ∪ cs.toFinset.image (fun c => c.toNat % 256)) := by
  intro cs
  induction cs with
  | nil => intro acc _; simp [insertDelimiters]
  | cons c rest ih =>
    intro acc h
    have hc : charIsAscii c = true := h c (List.mem_cons_self c rest)
    rw [insertDelimiters, if_neg (by simp [hc]),
      ih _ (fun x hx => h x (List.mem_cons_of_mem _ hx))]
    congr 1
    ext x
    simp only [Finset.mem_union, Finset.mem_insert, Finset.mem_image, List.toFinset_cons,
      List.mem_toFinset]
    constructor
    · rintro ((h₁ | h₁) | ⟨y, hy, hyx⟩)
      · exact Or.inr ⟨c, Or.inl rfl, h₁.symm⟩
      · exact Or.inl h₁
      · exact Or.inr ⟨y, Or.inr hy, hyx⟩
    · rintro (h₁ | ⟨y, hy | hy, hyx⟩)
      · exact Or.inl (Or.inr h₁)
      · subst hy; exact Or.inl (Or.inl hyx.symm)
      · exact Or.inr ⟨y, hy, hyx⟩

theorem insertDelimiters_err :
    ∀ (cs : List Char) (acc : Finset ℕ),
      (∃ c ∈ cs, charIsAscii c = false) →
      insertDelimiters acc cs = Except.error Error.NoneASCIICharacters := by
  intro cs
  induction cs with
  | nil => rintro acc ⟨c, hc, _⟩; cases hc
  | cons c rest ih =>
    rintro acc ⟨x, hx, hxa⟩
    by_cases hc : charIsAscii c = false
    · rw [insertDelimiters, if_pos (by simp [hc])]
    · rcases List.mem_cons.mp hx with rfl | hx'
      · exact absurd hxa hc
      · rw [insertDelimiters, if_neg (by simpa using hc)]
        exact ih _ ⟨x, hx', hxa⟩

theorem insertDelimiters_ok_inv :
    ∀ (cs : List Char) (acc s : Finset ℕ),
      insertDelimiters acc cs = Except.ok s →
      (∀ c ∈ cs, charIsAscii c = true) ∧
        s = acc ∪ cs.toFinset.image (fun c => c.toNat % 256) := by
  intro cs
  induction cs with
  | nil =>
    intro acc s h
    simp [insertDelimiters] at h
    simp [h]
  | cons c rest ih =>
    intro acc s h
    by_cases hc : charIsAscii c = false
    · rw [insertDelimiters, if_pos (by simp [hc])] at h
      cases h
    · have hc' : charIsAscii c = true := by simpa using hc
      have h' := h
      rw [insertDelimiters, if_neg (by simp [hc'])] at h'
      obtain ⟨hall, _⟩ := ih _ _ h'
      have hall' : ∀ x ∈ c :: rest, charIsAscii x = true := by
        intro x hx
        rcases List.mem_cons.mp hx with rfl | hx'
        · exact hc'
        · exact hall x hx'
      have h₂ := insertDelimiters_ok (c :: rest) acc hall'
      rw [h] at h₂
      exact ⟨hall', (Except.ok.injEq _ _).mp h₂⟩

theorem pushTimestamps_parsed (parse : String → Except Error α) :
    ∀ (seq : List Value) (acc out : List (Schema α)),
      pushTimestamps parse acc seq = Except.ok out →
      (∀ e ∈ acc, entryParsed parse e) → ∀ e ∈ out, entryParsed parse e := by
  intro seq
  induction seq with
  | nil =>
    intro acc out h hacc
    rw [pushTimestamps] at h
    cases h
    exact hacc
  | cons v rest ih =>
    intro acc out h hacc
    cases v
    case string s =>
      cases hp : parse s with
      | ok a =>
        rw [pushTimestamps] at h
        simp only [TimestampSchema.new, hp] at h
        refine ih _ out h ?_
        intro e he
        rcases List.mem_append.mp he with h₁ | h₂
        · exact hacc e h₁
        · simp only [List.mem_singleton] at h₂
          subst h₂
          simpa [entryParsed, Schema.patternOf, Schema.get_ast] using hp
      | error e =>
        rw [pushTimestamps] at h
        simp only [TimestampSchema.new, hp] at h
        cases h
    all_goals simp [pushTimestamps] at h

theorem pushVars_parsed (parse : String → Except Error α) :
    ∀ (m : List (Value × Value)) (acc out : List (Schema α)),
      pushVars parse acc m = Except.ok out →
      (∀ e ∈ acc, entryParsed parse e) → ∀ e ∈ out, entryParsed parse e := by
  intro m
  induction m with
  | nil =>
    intro acc out h hacc
    rw [pushVars] at h
    cases h
    exact hacc
  | cons p rest ih =>
    intro acc out h hacc
    obtain ⟨key, value⟩ := p
    cases key
    case string name =>
      cases value
      case string regex =>
        cases hp : parse regex with
        | ok a =>
          rw [pushVars] at h
          simp only [VarSchema.new, hp] at h
          refine ih _ out h ?_
          intro e he
          rcases List.mem_append.mp he with h₁ | h₂
          · exact hacc e h₁
          · simp only [List.mem_singleton] at h₂
            subst h₂
            simpa [entryParsed, Schema.patternOf, Schema.get_ast] using hp
        | error e =>
          rw [pushVars] at h
          simp only [VarSchema.new, hp] at h
          cases h
      all_goals simp [pushVars] at h
    all_goals simp [pushVars] at h

theorem pushTimestamps_invalid (parse : String → Except Error α) :
    ∀ (ts : List String) (acc : List (Schema α)) (bad : Value) (rest : List Value),
      (∀ s ∈ ts, ∃ a, parse s = Except.ok a) →
      Value.isString bad = false →
      pushTimestamps parse acc (ts.map Value.string ++ bad :: rest) =
        Except.error Error.InvalidSchema := by
  intro ts
  induction ts with
  | nil =>
    intro acc bad rest _ hbad
    cases bad <;> simp_all [pushTimestamps, Value.isString]
  | cons s tl ih =>
    intro acc bad rest hp hbad
    obtain ⟨a, ha⟩ := hp s (List.mem_cons_self s tl)
    rw [List.map_cons, List.cons_append, pushTimestamps]
    simp only [TimestampSchema.new, ha]
    exact ih _ bad rest (fun x hx => hp x (List.mem_cons_of_mem _ hx)) hbad

theorem pushVars_invalid (parse : String → Except Error α) :
    ∀ (vars : List (String × String)) (acc : List (Schema α))
      (bk bv : Value) (rest : List (Value × Value)),
      (∀ p ∈ vars, ∃ a, parse p.2 = Except.ok a) →
      (Value.isString bk && Value.isString bv) = false →
      pushVars parse acc
          (vars.map (fun p => (Value.string p.1, Value.string p.2)) ++ (bk, bv) :: rest) =
        Except.error Error.InvalidSchema := by
  intro vars
  induction vars with
  | nil =>
    intro acc bk bv rest _ hbad
    cases bk <;> cases bv <;> simp_all [pushVars, Value.isString]
  | cons p tl ih =>
    intro acc bk bv rest hp hbad
    obtain ⟨a, ha⟩ := hp p (List.mem_cons_self p tl)
    rw [List.map_cons, List.cons_append, pushVars]
    simp only [VarSchema.new, ha]
    exact ih _ bk bv rest (fun x hx => hp x (List.mem_cons_of_mem _ hx)) hbad

theorem get_key_value_some (kv : List (String × Value)) (key : String) (v : Value)
    (h : kv.lookup key = some v) : get_key_value kv key = Except.ok v := by
  simp [get_key_value, h]

theorem get_key_value_none (kv : List (String × Value)) (key : String)
    (h : kv.lookup key = none) :
    get_key_value kv key = Except.error (Error.MissingSchemaKey key) := by
  simp [get_key_value, h]

theorem get_key_value_ok_inv (kv : List (String × Value)) (key : String) (v : Value)
    (h : get_key_value kv key = Except.ok v) : kv.lookup key = some v := by
  cases hl : kv.lookup key with
  | none => simp [get_key_value, hl] at h
  | some w =>
    simp [get_key_value, hl] at h
    subst h
    rfl

theorem load_ok_master (parse : String → Except Error α) (kv : List (String × Value))
    (ts : List String) (vars : List (String × String)) (d : String)
    (hts : kv.lookup TIMESTAMP_KEY = some (Value.sequence (ts.map Value.string)))
    (hvs : kv.lookup VAR_KEY =
      some (Value.mapping (vars.map (fun p => (Value.string p.1, Value.string p.2)))))
    (hd : kv.lookup DELIMITER_EKY = some (Value.string d))
    (hpt : ∀ s ∈ ts, ∃ a, parse s = Except.ok a)
    (hpv : ∀ p ∈ vars, ∃ a, parse p.2 = Except.ok a)
    (hda : ∀ c ∈ d.data, charIsAscii c = true) :
    ∃ lts lvs,
      load_from_kv_pairs parse kv =
        Except.ok ⟨lts ++ lvs, d.data.toFinset.image (fun c => c.toNat % 256)⟩ ∧
      List.Forall₂ (tsEntryOf parse) ts lts ∧
      List.Forall₂ (varEntryOf parse) vars lvs := by
  obtain ⟨lts, hpush₁, hrel₁⟩ := pushTimestamps_ok parse ts [] hpt
  rw [List.nil_append] at hpush₁
  obtain ⟨lvs, hpush₂, hrel₂⟩ := pushVars_ok parse vars lts hpv
  have hins := insertDelimiters_ok d.data ∅ hda
  rw [Finset.empty_union] at hins
  refine ⟨lts, lvs, ?_, hrel₁, hrel₂⟩
  unfold load_from_kv_pairs
  rw [get_key_value_some _ _ _ hts]
  simp only []
  rw [hpush₁]
  simp only []
  rw [get_key_value_some _ _ _ hvs]
  simp only []
  rw [hpush₂]
  simp only []
  rw [get_key_value_some _ _ _ hd]
  simp only []
  rw [hins]

theorem load_ok_inversion (parse : String → Except Error α) (kv : List (String × Value))
    (ps : ParsedSchema α) (h : load_from_kv_pairs parse kv = Except.ok ps) :
    ∃ seq mp dstr s₁,
      kv.lookup TIMESTAMP_KEY = some (Value.sequence seq) ∧
      pushTimestamps parse [] seq = Except.ok s₁ ∧
      kv.lookup VAR_KEY = some (Value.mapping mp) ∧
      pushVars parse s₁ mp = Except.ok ps.schemas ∧
      kv.lookup DELIMITER_EKY = some (Value.string dstr) ∧
      insertDelimiters ∅ dstr.data = Except.ok ps.delimiters := by
  unfold load_from_kv_pairs at h
  cases h₁ : get_key_value kv TIMESTAMP_KEY with
  | error e => rw [h₁] at h; simp at h
  | ok v₁ =>
    rw [h₁] at h
    cases v₁
    case sequence seq =>
      simp only [] at h
      cases h₂ : pushTimestamps parse [] seq with
      | error e => rw [h₂] at h; simp at h
      | ok s₁ =>
        rw [h₂] at h
        simp only [] at h
        cases h₃ : get_key_value kv VAR_KEY with
        | error e => rw [h₃] at h; simp at h
        | ok v₂ =>
          rw [h₃] at h
          cases v₂
          case mapping mp =>
            simp only [] at h
            cases h₄ : pushVars parse s₁ mp with
            | error e => rw [h₄] at h; simp at h
            | ok s₂ =>
              rw [h₄] at h
              simp only [] at h
              cases h₅ : get_key_value kv DELIMITER_EKY with
              | error e => rw [h₅] at h; simp at h
              | ok v₃ =>
                rw [h₅] at h
                cases v₃
                case string dstr =>
                  simp only [] at h
                  cases h₆ : insertDelimiters ∅ dstr.data with
                  | error e => rw [h₆] at h; simp at h
                  | ok dl =>
                    rw [h₆] at h
                    simp only [Except.ok.injEq] at h
                    refine ⟨seq, mp, dstr, s₁, get_key_value_ok_inv _ _ _ h₁, h₂,
                      get_key_value_ok_inv _ _ _ h₃, ?_, get_key_value_ok_inv _ _ _ h₅, ?_⟩
                    · rw [← h]; exact h₄
                    · rw [← h]; exact h₆
                all_goals simp at h
          all_goals simp at h
    all_goals simp at h

theorem forall₂_right_mem {R : β → γ → Prop} :
    ∀ {xs : List β} {ys : List γ}, List.Forall₂ R xs ys → ∀ y ∈ ys, ∃ x ∈ xs, R x y := by
  intro xs ys h
  induction h with
  | nil => intro y hy; cases hy
  | cons h₁ _ ih =>
    intro y hy
    rcases List.mem_cons.mp hy with rfl | hy'
    · exact ⟨_, List.mem_cons_self _ _, h₁⟩
    · obtain ⟨x, hx, hr⟩ := ih y hy'
      exact ⟨x, List.mem_cons_of_mem _ hx, hr⟩

theorem forall₂_ts_pattern (parse : String → Except Error α) :
    ∀ {ts : List String} {lts : List (Schema α)},
      List.Forall₂ (tsEntryOf parse) ts lts → lts.map Schema.patternOf = ts := by
  intro ts lts h
  induction h with
  | nil => rfl
  | cons h₁ _ ih =>
    obtain ⟨a, _, rfl⟩ := h₁
    simp [Schema.patternOf, ih]

theorem forall₂_var_pattern (parse : String → Except Error α) :
    ∀ {vars : List (String × String)} {lvs : List (Schema α)},
      List.Forall₂ (varEntryOf parse) vars lvs →
      lvs.map Schema.patternOf = vars.map Prod.snd := by
  intro vars lvs h
  induction h with
  | nil => rfl
  | cons h₁ _ ih =>
    obtain ⟨a, _, rfl⟩ := h₁
    simp [Schema.patternOf, ih]

theorem charToNat_injective : Function.Injective Char.toNat := by
  intro a b h
  exact Char.eq_of_val_eq (UInt32.ext h)

theorem delim_image_card (d : List Char) (hda : ∀ c ∈ d, charIsAscii c = true) :
    (d.toFinset.image (fun c => c.toNat % 256)).card = d.toFinset.card := by
  apply Finset.card_image_of_injOn
  intro x hx y hy hxy
  have hx' : x.toNat < 128 := by
    simpa [charIsAscii] using hda x (List.mem_toFinset.mp hx)
  have hy' : y.toNat < 128 := by
    simpa [charIsAscii] using hda y (List.mem_toFinset.mp hy)
  have hxy' : x.toNat % 256 = y.toNat % 256 := hxy
  apply charToNat_injective
  rwa [Nat.mod_eq_of_lt (lt_trans hx' (by norm_num)),
    Nat.mod_eq_of_lt (lt_trans hy' (by norm_num))] at hxy'

/-- The predicate selecting the three required top-level keys. -/
def requiredKey (p : String × Value) : Bool :=
  p.1 == TIMESTAMP_KEY || p.1 == VAR_KEY || p.1 == DELIMITER_EKY

theorem lookup_filter (kv : List (String × Value)) (key : String)
    (hk : (key == TIMESTAMP_KEY || key == VAR_KEY || key == DELIMITER_EKY) = true) :
    (kv.filter requiredKey).lookup key = kv.lookup key := by
  induction kv with
  | nil => rfl
  | cons p rest ih =>
    obtain ⟨k, v⟩ := p
    by_cases hpk : key == k
    · have hkk : key = k := by simpa using hpk
      have hreq : requiredKey (k, v) = true := by
        subst hkk
        simpa [requiredKey] using hk
      rw [List.filter_cons_of_pos hreq]
      simp [List.lookup, hpk]
    · have hpk' : (key == k) = false := by simpa using hpk
      by_cases hreq : requiredKey (k, v) = true
      · rw [List.filter_cons_of_pos hreq]
        simp only [List.lookup, hpk']
        exact ih
      · rw [List.filter_cons_of_neg (by simpa using hreq)]
        rw [ih]
        simp [List.lookup, hpk']

theorem load_congr (parse : String → Except Error α) (kv₁ kv₂ : List (String × Value))
    (h₁ : kv₁.lookup TIMESTAMP_KEY = kv₂.lookup TIMESTAMP_KEY)
    (h₂ : kv₁.lookup VAR_KEY = kv₂.lookup VAR_KEY)
    (h₃ : kv₁.lookup DELIMITER_EKY = kv₂.lookup DELIMITER_EKY) :
    load_from_kv_pairs parse kv₁ = load_from_kv_pairs parse kv₂ := by
  unfold load_from_kv_pairs get_key_value
  rw [h₁, h₂, h₃]

/-! ## Claim theorems -/

/-- Claim C1: for every valid input document — one the YAML layer turns into
key/value pairs whose timestamp section is a sequence of N pattern strings,
whose variables section is a mapping of M name/pattern string pairs, and
whose delimiters section is a string `d` of ASCII characters, with every
pattern accepted by the grammar parser — `parse_from_str` succeeds and the
resulting schema has exactly N + M entries in `schemas` and exactly as many
delimiters as `d` has distinct characters. -/
theorem C1_entry_and_delimiter_counts (yamlLoad : String → Option (List (String × Value)))
    (parse : String → Except Error α) (doc : String) (kv : List (String × Value))
    (ts : List String) (vars : List (String × String)) (d : String)
    (hy : yamlLoad doc = some kv)
    (hts : kv.lookup TIMESTAMP_KEY = some (Value.sequence (ts.map Value.string)))
    (hvs : kv.lookup VAR_KEY =
      some (Value.mapping (vars.map (fun p => (Value.string p.1, Value.string p.2)))))
    (hd : kv.lookup DELIMITER_EKY = some (Value.string d))
    (hpt : ∀ s ∈ ts, ∃ a, parse s = Except.ok a)
    (hpv : ∀ p ∈ vars, ∃ a, parse p.2 = Except.ok a)
    (hda : ∀ c ∈ d.data, charIsAscii c = true) :
    ∃ ps : ParsedSchema α,
      parse_from_str yamlLoad parse doc = Except.ok ps ∧
      ps.schemas.length = ts.length + vars.length ∧
      ps.delimiters.card = d.data.toFinset.card := by
  obtain ⟨lts, lvs, hok, hrel₁, hrel₂⟩ :=
    load_ok_master parse kv ts vars d hts hvs hd hpt hpv hda
  have hps : parse_from_str yamlLoad parse doc = load_from_kv_pairs parse kv := by
    unfold parse_from_str
    rw [hy]
  refine ⟨_, by rw [hps, hok], ?_, ?_⟩
  · simp [List.length_append, ← hrel₁.length_eq, ← hrel₂.length_eq]
  · exact delim_image_card d.data hda

/-- Claim C2: for every successfully built schema from a document with N
timestamp strings and M variable pairs, the entries split as a prefix of N
timestamp entries mirroring the source sequence order followed by M variable
entries. -/
theorem C2_entry_order (parse : String → Except Error α) (kv : List (String × Value))
    (ts : List String) (vars : List (String × String)) (d : String)
    (hts : kv.lookup TIMESTAMP_KEY = some (Value.sequence (ts.map Value.string)))
    (hvs : kv.lookup VAR_KEY =
      some (Value.mapping (vars.map (fun p => (Value.string p.1, Value.string p.2)))))
    (hd : kv.lookup DELIMITER_EKY = some (Value.string d))
    (hpt : ∀ s ∈ ts, ∃ a, parse s = Except.ok a)
    (hpv : ∀ p ∈ vars, ∃ a, parse p.2 = Except.ok a)
    (hda : ∀ c ∈ d.data, charIsAscii c = true) :
    ∃ (ps : ParsedSchema α) (lts lvs : List (Schema α)),
      load_from_kv_pairs parse kv = Except.ok ps ∧
      ps.schemas = lts ++ lvs ∧
      lts.length = ts.length ∧ lvs.length = vars.length ∧
      List.Forall₂
        (fun s e => ∃ t : TimestampSchema α, e = Schema.Timestamp t ∧ t.regex = s) ts lts ∧
      (∀ e ∈ lvs, ∃ v : VarSchema α, e = Schema.Var v) := by
  obtain ⟨lts, lvs, hok, hrel₁, hrel₂⟩ :=
    load_ok_master parse kv ts vars d hts hvs hd hpt hpv hda
  refine ⟨_, lts, lvs, hok, rfl, hrel₁.length_eq.symm, hrel₂.length_eq.symm, ?_, ?_⟩
  · refine hrel₁.imp ?_
    rintro s e ⟨a, _, rfl⟩
    exact ⟨⟨s, a⟩, rfl, rfl⟩
  · intro e he
    obtain ⟨p, _, a, _, rfl⟩ := forall₂_right_mem hrel₂ e he
    exact ⟨⟨p.1, p.2, a⟩, rfl⟩

/-- Claim C7: for a successfully built schema over a well-formed document,
every entry stores exactly the source pattern string from the document (the
schemas' pattern strings, in order, are the N timestamp strings followed by
the M variable pattern strings), and every entry's AST is exactly the grammar
parser's output on its own pattern string — so no entry has an unparsed
pattern. -/
theorem C7_round_trip (parse : String → Except Error α) (kv : List (String × Value))
    (ts : List String) (vars : List (String × String)) (d : String)
    (hts : kv.lookup TIMESTAMP_KEY = some (Value.sequence (ts.map Value.string)))
    (hvs : kv.lookup VAR_KEY =
      some (Value.mapping (vars.map (fun p => (Value.string p.1, Value.string p.2)))))
    (hd : kv.lookup DELIMITER_EKY = some (Value.string d))
    (hpt : ∀ s ∈ ts, ∃ a, parse s = Except.ok a)
    (hpv : ∀ p ∈ vars, ∃ a, parse p.2 = Except.ok a)
    (hda : ∀ c ∈ d.data, charIsAscii c = true) :
    ∃ ps : ParsedSchema α,
      load_from_kv_pairs parse kv = Except.ok ps ∧
      ps.schemas.map Schema.patternOf = ts ++ vars.map Prod.snd ∧
      ∀ e ∈ ps.schemas, entryParsed parse e := by
  obtain ⟨lts, lvs, hok, hrel₁, hrel₂⟩ :=
    load_ok_master parse kv ts vars d hts hvs hd hpt hpv hda
  refine ⟨_, hok, ?_, ?_⟩
  · simp only [List.map_append]
    rw [forall₂_ts_pattern parse hrel₁, forall₂_var_pattern parse hrel₂]
  · intro e he
    rcases List.mem_append.mp he with h₁ | h₂
    · obtain ⟨s, _, a, hp, rfl⟩ := forall₂_right_mem hrel₁ e h₁
      simpa [entryParsed, Schema.patternOf, Schema.get_ast] using hp
    · obtain ⟨p, _, a, hp, rfl⟩ := forall₂_right_mem hrel₂ e h₂
      simpa [entryParsed, Schema.patternOf, Schema.get_ast] using hp

/-- Claim C3: for every successfully built schema whose source delimiter
string is `d`, and every query character `c`: `has_delimiter c` is `true`
exactly when `c` is ASCII and occurs in `d`; in particular it is `false` for
every non-ASCII `c`, and being a total function it never fails. -/
theorem C3_has_delimiter_iff (parse : String → Except Error α) (kv : List (String × Value))
    (ps : ParsedSchema α) (d : String)
    (hok : load_from_kv_pairs parse kv = Except.ok ps)
    (hd : kv.lookup DELIMITER_EKY = some (Value.string d)) :
    ∀ c : Char, ps.has_delimiter c = (charIsAscii c && decide (c ∈ d.data)) := by
  obtain ⟨seq, mp, dstr, s₁, _, _, _, _, hd', hins⟩ := load_ok_inversion parse kv ps hok
  rw [hd] at hd'
  injection hd' with hd''
  injection hd'' with hd'''
  subst hd'''
  obtain ⟨hall, hset⟩ := insertDelimiters_ok_inv d.data ∅ ps.delimiters hins
  rw [Finset.empty_union] at hset
  intro c
  unfold ParsedSchema.has_delimiter
  by_cases hc : charIsAscii c = true
  · rw [if_neg (by simp [hc]), hc, Bool.true_and, hset]
    simp only [decide_eq_decide, Finset.mem_image, List.mem_toFinset]
    constructor
    · rintro ⟨y, hy, hyc⟩
      have hy' : y.toNat < 128 := by simpa [charIsAscii] using hall y hy
      have hc' : c.toNat < 128 := by simpa [charIsAscii] using hc
      rw [Nat.mod_eq_of_lt (lt_trans hy' (by norm_num)),
        Nat.mod_eq_of_lt (lt_trans hc' (by norm_num))] at hyc
      rwa [charToNat_injective hyc] at hy
    · intro hcd
      exact ⟨c, hcd, rfl⟩
  · have hc' : charIsAscii c = false := by simpa using hc
    rw [if_pos (by simp [hc']), hc', Bool.false_and]

/-- Claim C4: a document missing its timestamp key fails with
`MissingSchemaKey "timestamp"` no matter what the rest of the document is;
with the timestamp section well-formed, a missing variables key fails with
`MissingSchemaKey "variables"` no matter what the delimiters section is; and
with both earlier sections well-formed, a missing delimiters key fails with
`MissingSchemaKey "delimiters"` — i.e. the first missing section in the
fixed order timestamps, variables, delimiters is the one reported. -/
theorem C4_missing_key (parse : String → Except Error α)
    (kv₁ kv₂ kv₃ : List (String × Value))
    (ts₂ ts₃ : List String) (vars₃ : List (String × String))
    (h₁ : kv₁.lookup TIMESTAMP_KEY = none)
    (h₂ts : kv₂.lookup TIMESTAMP_KEY = some (Value.sequence (ts₂.map Value.string)))
    (h₂pt : ∀ s ∈ ts₂, ∃ a, parse s = Except.ok a)
    (h₂ : kv₂.lookup VAR_KEY = none)
    (h₃ts : kv₃.lookup TIMESTAMP_KEY = some (Value.sequence (ts₃.map Value.string)))
    (h₃pt : ∀ s ∈ ts₃, ∃ a, parse s = Except.ok a)
    (h₃vs : kv₃.lookup VAR_KEY =
      some (Value.mapping (vars₃.map (fun p => (Value.string p.1, Value.string p.2)))))
    (h₃pv : ∀ p ∈ vars₃, ∃ a, parse p.2 = Except.ok a)
    (h₃ : kv₃.lookup DELIMITER_EKY = none) :
    load_from_kv_pairs parse kv₁ = Except.error (Error.MissingSchemaKey "timestamp") ∧
    load_from_kv_pairs parse kv₂ = Except.error (Error.MissingSchemaKey "variables") ∧
    load_from_kv_pairs parse kv₃ = Except.error (Error.MissingSchemaKey "delimiters") := by
  refine ⟨?_, ?_, ?_⟩
  · unfold load_from_kv_pairs
    rw [get_key_value_none _ _ h₁]
    rfl
  · obtain ⟨lts, hpush, _⟩ := pushTimestamps_ok parse ts₂ [] h₂pt
    unfold load_from_kv_pairs
    rw [get_key_value_some _ _ _ h₂ts]
    simp only []
    rw [hpush]
    simp only []
    rw [get_key_value_none _ _ h₂]
    rfl
  · obtain ⟨lts, hpush₁, _⟩ := pushTimestamps_ok parse ts₃ [] h₃pt
    rw [List.nil_append] at hpush₁
    obtain ⟨lvs, hpush₂, _⟩ := pushVars_ok parse vars₃ lts h₃pv
    unfold load_from_kv_pairs
    rw [get_key_value_some _ _ _ h₃ts]
    simp only []
    rw [hpush₁]
    simp only []
    rw [get_key_value_some _ _ _ h₃vs]
    simp only []
    rw [hpush₂]
    simp only []
    rw [get_key_value_none _ _ h₃]
    rfl

/-- Claim C5: each of the four shape mismatches yields exactly the
`InvalidSchema` error — a timestamps section that is not a sequence; a
timestamp sequence element that is not a string (all earlier elements being
well-formed); a variables pair whose key or value is not a string (all
earlier pairs being well-formed); a delimiters section that is not a
string (the earlier sections being well-formed). -/
theorem C5_invalid_shape (parse : String → Except Error α)
    (kv₁ kv₂ kv₃ kv₄ : List (String × Value))
    (v₁ : Value) (ts₂ : List String) (bad₂ : Value) (rest₂ : List Value)
    (ts₃ : List String) (vars₃ : List (String × String)) (bk₃ bv₃ : Value)
    (rest₃ : List (Value × Value))
    (ts₄ : List String) (vars₄ : List (String × String)) (v₄ : Value)
    (h₁ : kv₁.lookup TIMESTAMP_KEY = some v₁)
    (h₁s : Value.isSequence v₁ = false)
    (h₂ts : kv₂.lookup TIMESTAMP_KEY =
      some (Value.sequence (ts₂.map Value.string ++ bad₂ :: rest₂)))
    (h₂pt : ∀ s ∈ ts₂, ∃ a, parse s = Except.ok a)
    (h₂bad : Value.isString bad₂ = false)
    (h₃ts : kv₃.lookup TIMESTAMP_KEY = some (Value.sequence (ts₃.map Value.string)))
    (h₃pt : ∀ s ∈ ts₃, ∃ a, parse s = Except.ok a)
    (h₃vs : kv₃.lookup VAR_KEY = some (Value.mapping
      (vars₃.map (fun p => (Value.string p.1, Value.string p.2)) ++ (bk₃, bv₃) :: rest₃)))
    (h₃pv : ∀ p ∈ vars₃, ∃ a, parse p.2 = Except.ok a)
    (h₃bad : (Value.isString bk₃ && Value.isString bv₃) = false)
    (h₄ts : kv₄.lookup TIMESTAMP_KEY = some (Value.sequence (ts₄.map Value.string)))
    (h₄pt : ∀ s ∈ ts₄, ∃ a, parse s = Except.ok a)
    (h₄vs : kv₄.lookup VAR_KEY =
      some (Value.mapping (vars₄.map (fun p => (Value.string p.1, Value.string p.2)))))
    (h₄pv : ∀ p ∈ vars₄, ∃ a, parse p.2 = Except.ok a)
    (h₄d : kv₄.lookup DELIMITER_EKY = some v₄)
    (h₄s : Value.isString v₄ = false) :
    load_from_kv_pairs parse kv₁ = Except.error Error.InvalidSchema ∧
    load_from_kv_pairs parse kv₂ = Except.error Error.InvalidSchema ∧
    load_from_kv_pairs parse kv₃ = Except.error Error.InvalidSchema ∧
    load_from_kv_pairs parse kv₄ = Except.error Error.InvalidSchema := by
  refine ⟨?_, ?_, ?_, ?_⟩
  · unfold load_from_kv_pairs
    rw [get_key_value_some _ _ _ h₁]
    cases v₁ <;> simp_all [Value.isSequence]
  · unfold load_from_kv_pairs
    rw [get_key_value_some _ _ _ h₂ts]
    simp only []
    rw [pushTimestamps_invalid parse ts₂ [] bad₂ rest₂ h₂pt h₂bad]
  · obtain ⟨lts, hpush₁, _⟩ := pushTimestamps_ok parse ts₃ [] h₃pt
    unfold load_from_kv_pairs
    rw [get_key_value_some _ _ _ h₃ts]
    simp only []
    rw [hpush₁]
    simp only []
    rw [get_key_value_some _ _ _ h₃vs]
    simp only []
    rw [pushVars_invalid parse vars₃ _ bk₃ bv₃ rest₃ h₃pv h₃bad]
  · obtain ⟨lts, hpush₁, _⟩ := pushTimestamps_ok parse ts₄ [] h₄pt
    rw [List.nil_append] at hpush₁
    obtain ⟨lvs, hpush₂, _⟩ := pushVars_ok parse vars₄ lts h₄pv
    unfold load_from_kv_pairs
    rw [get_key_value_some _ _ _ h₄ts]
    simp only []
    rw [hpush₁]
    simp only []
    rw [get_key_value_some _ _ _ h₄vs]
    simp only []
    rw [hpush₂]
    simp only []
    rw [get_key_value_some _ _ _ h₄d]
    cases v₄ <;> simp_all [Value.isString]

/-- Claim C6: for every otherwise well-formed document whose delimiter
string contains a non-ASCII character (code point at least 128) at any
position, construction fails with the `NoneASCIICharacters` error (the
error the spec calls `NonASCIICharacter`), and no schema is returned. -/
theorem C6_non_ascii_delimiter (parse : String → Except Error α)
    (kv : List (String × Value))
    (ts : List String) (vars : List (String × String)) (d : String)
    (hts : kv.lookup TIMESTAMP_KEY = some (Value.sequence (ts.map Value.string)))
    (hpt : ∀ s ∈ ts, ∃ a, parse s = Except.ok a)
    (hvs : kv.lookup VAR_KEY =
      some (Value.mapping (vars.map (fun p => (Value.string p.1, Value.string p.2)))))
    (hpv : ∀ p ∈ vars, ∃ a, parse p.2 = Except.ok a)
    (hd : kv.lookup DELIMITER_EKY = some (Value.string d))
    (hnon : ∃ c ∈ d.data, charIsAscii c = false) :
    load_from_kv_pairs parse kv = Except.error Error.NoneASCIICharacters := by
  obtain ⟨lts, hpush₁, _⟩ := pushTimestamps_ok parse ts [] hpt
  rw [List.nil_append] at hpush₁
  obtain ⟨lvs, hpush₂, _⟩ := pushVars_ok parse vars lts hpv
  unfold load_from_kv_pairs
  rw [get_key_value_some _ _ _ hts]
  simp only []
  rw [hpush₁]
  simp only []
  rw [get_key_value_some _ _ _ hvs]
  simp only []
  rw [hpush₂]
  simp only []
  rw [get_key_value_some _ _ _ hd]
  simp only []
  rw [insertDelimiters_err d.data ∅ hnon]

/-- Claim C8: for every otherwise well-formed document whose delimiters
section is the empty string, construction succeeds — the empty delimiter
string is not an error — and the resulting delimiter set is empty, so
`has_delimiter` returns `false` on every character. -/
theorem C8_empty_delimiter_string (parse : String → Except Error α)
    (kv : List (String × Value))
    (ts : List String) (vars : List (String × String))
    (hts : kv.lookup TIMESTAMP_KEY = some (Value.sequence (ts.map Value.string)))
    (hpt : ∀ s ∈ ts, ∃ a, parse s = Except.ok a)
    (hvs : kv.lookup VAR_KEY =
      some (Value.mapping (vars.map (fun p => (Value.string p.1, Value.string p.2)))))
    (hpv : ∀ p ∈ vars, ∃ a, parse p.2 = Except.ok a)
    (hd : kv.lookup DELIMITER_EKY = some (Value.string "")) :
    ∃ ps : ParsedSchema α,
      load_from_kv_pairs parse kv = Except.ok ps ∧
      ps.delimiters = ∅ ∧
      ∀ c : Char, ps.has_delimiter c = false := by
  obtain ⟨lts, lvs, hok, _, _⟩ :=
    load_ok_master parse kv ts vars "" hts hvs hd hpt hpv (by intro c hc; cases hc)
  refine ⟨_, hok, ?_, ?_⟩
  · simp
  · intro c
    unfold ParsedSchema.has_delimiter
    by_cases hc : charIsAscii c = true
    · rw [if_neg (by simp [hc])]
      simp
    · have hc' : charIsAscii c = false := by simpa using hc
      rw [if_pos (by simp [hc'])]

/-- Claim C9: for a document whose three required sections are present and
well-formed, any additional top-level keys are ignored: construction
succeeds and produces exactly the same schema as the document restricted to
the three required keys. -/
theorem C9_extra_keys_ignored (parse : String → Except Error α)
    (kv : List (String × Value))
    (ts : List String) (vars : List (String × String)) (d : String)
    (hts : kv.lookup TIMESTAMP_KEY = some (Value.sequence (ts.map Value.string)))
    (hvs : kv.lookup VAR_KEY =
      some (Value.mapping (vars.map (fun p => (Value.string p.1, Value.string p.2)))))
    (hd : kv.lookup DELIMITER_EKY = some (Value.string d))
    (hpt : ∀ s ∈ ts, ∃ a, parse s = Except.ok a)
    (hpv : ∀ p ∈ vars, ∃ a, parse p.2 = Except.ok a)
    (hda : ∀ c ∈ d.data, charIsAscii c = true) :
    ∃ ps : ParsedSchema α,
      load_from_kv_pairs parse kv = Except.ok ps ∧
      load_from_kv_pairs parse (kv.filter requiredKey) = Except.ok ps := by
  obtain ⟨lts, lvs, hok, _, _⟩ :=
    load_ok_master parse kv ts vars d hts hvs hd hpt hpv hda
  refine ⟨_, hok, ?_⟩
  rw [load_congr parse (kv.filter requiredKey) kv
    (lookup_filter kv TIMESTAMP_KEY (by decide))
    (lookup_filter kv VAR_KEY (by decide))
    (lookup_filter kv DELIMITER_EKY (by decide))]
  exact hok

/-- Claim C10: a document whose timestamps section is the empty sequence is
accepted and contributes zero timestamp entries (all entries are variable
entries), and a document whose variables section is the empty mapping is
accepted and contributes zero variable entries (all entries are timestamp
entries); emptiness of either section is not an error. -/
theorem C10_empty_sections (parse : String → Except Error α)
    (kv₁ kv₂ : List (String × Value))
    (vars₁ : List (String × String)) (ts₂ : List String) (d₁ d₂ : String)
    (h₁ts : kv₁.lookup TIMESTAMP_KEY = some (Value.sequence []))
    (h₁vs : kv₁.lookup VAR_KEY =
      some (Value.mapping (vars₁.map (fun p => (Value.string p.1, Value.string p.2)))))
    (h₁pv : ∀ p ∈ vars₁, ∃ a, parse p.2 = Except.ok a)
    (h₁d : kv₁.lookup DELIMITER_EKY = some (Value.string d₁))
    (h₁da : ∀ c ∈ d₁.data, charIsAscii c = true)
    (h₂ts : kv₂.lookup TIMESTAMP_KEY = some (Value.sequence (ts₂.map Value.string)))
    (h₂pt : ∀ s ∈ ts₂, ∃ a, parse s = Except.ok a)
    (h₂vs : kv₂.lookup VAR_KEY = some (Value.mapping []))
    (h₂d : kv₂.lookup DELIMITER_EKY = some (Value.string d₂))
    (h₂da : ∀ c ∈ d₂.data, charIsAscii c = true) :
    (∃ ps : ParsedSchema α,
      load_from_kv_pairs parse kv₁ = Except.ok ps ∧
      ps.schemas.length = vars₁.length ∧
      ∀ e ∈ ps.schemas, ∃ v : VarSchema α, e = Schema.Var v) ∧
    (∃ ps : ParsedSchema α,
      load_from_kv_pairs parse kv₂ = Except.ok ps ∧
      ps.schemas.length = ts₂.length ∧
      ∀ e ∈ ps.schemas, ∃ t : TimestampSchema α, e = Schema.Timestamp t) := by
  constructor
  · obtain ⟨lts, lvs, hok, hrel₁, hrel₂⟩ :=
      load_ok_master parse kv₁ [] vars₁ d₁ h₁ts h₁vs h₁d
        (by intro s hs; cases hs) h₁pv h₁da
    cases hrel₁
    refine ⟨_, hok, ?_, ?_⟩
    · simpa using hrel₂.length_eq.symm
    · intro e he
      simp only [List.nil_append] at he
      obtain ⟨p, _, a, _, rfl⟩ := forall₂_right_mem hrel₂ e he
      exact ⟨⟨p.1, p.2, a⟩, rfl⟩
  · obtain ⟨lts, lvs, hok, hrel₁, hrel₂⟩ :=
      load_ok_master parse kv₂ ts₂ [] d₂ h₂ts h₂vs h₂d h₂pt
        (by intro p hp; cases hp) h₂da
    cases hrel₂
    refine ⟨_, hok, ?_, ?_⟩
    · simpa using hrel₁.length_eq.symm
    · intro e he
      simp only [List.append_nil] at he
      obtain ⟨s, _, a, _, rfl⟩ := forall₂_right_mem hrel₁ e he
      exact ⟨⟨s, a⟩, rfl⟩

/-! ## Concrete instances for the witnesses -/

/-- A concrete grammar parser instantiating the opaque collaborator: every
pattern parses, and its AST is its length. -/
def lenParse : String → Except Error ℕ := fun s => Except.ok s.length

/-- A concrete well-formed document: two timestamp patterns, one variable
pair, and the delimiter string ": ,". -/
def kvGood : List (String × Value) :=
  [("timestamp", Value.sequence [Value.string "T1", Value.string "T2"]),
   ("variables", Value.mapping [(Value.string "ip", Value.string "P1")]),
   ("delimiters", Value.string ": ,")]

/-- The schema `load_from_kv_pairs` builds from `kvGood` under `lenParse`. -/
def psGood : ParsedSchema ℕ :=
  { schemas := [Schema.Timestamp ⟨"T1", 2⟩, Schema.Timestamp ⟨"T2", 2⟩,
      Schema.Var ⟨"ip", "P1", 2⟩],
    delimiters := {44, 32, 58} }

/-- `kvGood` without its timestamp section. -/
def kvNoTs : List (String × Value) :=
  [("variables", Value.mapping []), ("delimiters", Value.string "")]

/-- A document with a well-formed timestamp section but no variables key. -/
def kvNoVar : List (String × Value) :=
  [("timestamp", Value.sequence [Value.string "T1"]), ("delimiters", Value.string "")]

/-- A document with well-formed timestamp and variables sections but no
delimiters key. -/
def kvNoDelim : List (String × Value) :=
  [("timestamp", Value.sequence []), ("variables", Value.mapping [])]

/-- A document whose timestamps section is not a sequence. -/
def kvBadTsShape : List (String × Value) :=
  [("timestamp", Value.string "x"), ("variables", Value.mapping []),
   ("delimiters", Value.string "")]

/-- A document with a non-string element in the timestamps sequence. -/
def kvBadTsElem : List (String × Value) :=
  [("timestamp", Value.sequence [Value.string "T1", Value.number 5]),
   ("variables", Value.mapping []), ("delimiters", Value.string "")]

/-- A document with a non-string value in the variables mapping. -/
def kvBadVarPair : List (String × Value) :=
  [("timestamp", Value.sequence []),
   ("variables", Value.mapping [(Value.string "ip", Value.number 123)]),
   ("delimiters", Value.string "")]

/-- A document whose delimiters section is not a string. -/
def kvBadDelims : List (String × Value) :=
  [("timestamp", Value.sequence []), ("variables", Value.mapping []),
   ("delimiters", Value.number 1)]

/-- A document whose delimiter string contains a non-ASCII character. -/
def kvNonAscii : List (String × Value) :=
  [("timestamp", Value.sequence []), ("variables", Value.mapping []),
   ("delimiters", Value.string ",€")]

/-- A well-formed document whose delimiter string is empty. -/
def kvEmptyDelim : List (String × Value) :=
  [("timestamp", Value.sequence [Value.string "T1"]),
   ("variables", Value.mapping [(Value.string "ip", Value.string "P1")]),
   ("delimiters", Value.string "")]

/-- A well-formed document carrying two extra top-level keys. -/
def kvExtra : List (String × Value) :=
  [("timestamp", Value.sequence [Value.string "T1"]),
   ("comment", Value.string "hi"),
   ("variables", Value.mapping [(Value.string "ip", Value.string "P1")]),
   ("delimiters", Value.string ","),
   ("more", Value.null)]

/-- A well-formed document with an empty timestamps sequence. -/
def kvEmptyTs : List (String × Value) :=
  [("timestamp", Value.sequence []),
   ("variables", Value.mapping [(Value.string "ip", Value.string "P1")]),
   ("delimiters", Value.string ",")]

/-- A well-formed document with an empty variables mapping. -/
def kvEmptyVars : List (String × Value) :=
  [("timestamp", Value.sequence [Value.string "T1"]),
   ("variables", Value.mapping []), ("delimiters", Value.string ",")]

/-! ## Witnesses -/

/-- Witness for C1 at the concrete document `kvGood`. -/
theorem C1_entry_and_delimiter_counts_witness :
    ∃ ps : ParsedSchema ℕ,
      parse_from_str (fun _ => some kvGood) lenParse "doc" = Except.ok ps ∧
      ps.schemas.length = ["T1", "T2"].length + [("ip", "P1")].length ∧
      ps.delimiters.card = (": ,").data.toFinset.card :=
  C1_entry_and_delimiter_counts (fun _ => some kvGood) lenParse "doc" kvGood
    ["T1", "T2"] [("ip", "P1")] ": ," rfl rfl rfl rfl
    (fun s _ => ⟨s.length, rfl⟩) (fun p _ => ⟨p.2.length, rfl⟩) (by decide)

/-- Witness for C2 at the concrete document `kvGood`. -/
theorem C2_entry_order_witness :
    ∃ (ps : ParsedSchema ℕ) (lts lvs : List (Schema ℕ)),
      load_from_kv_pairs lenParse kvGood = Except.ok ps ∧
      ps.schemas = lts ++ lvs ∧
      lts.length = ["T1", "T2"].length ∧ lvs.length = [("ip", "P1")].length ∧
      List.Forall₂
        (fun s e => ∃ t : TimestampSchema ℕ, e = Schema.Timestamp t ∧ t.regex = s)
        ["T1", "T2"] lts ∧
      (∀ e ∈ lvs, ∃ v : VarSchema ℕ, e = Schema.Var v) :=
  C2_entry_order lenParse kvGood ["T1", "T2"] [("ip", "P1")] ": ," rfl rfl rfl
    (fun s _ => ⟨s.length, rfl⟩) (fun p _ => ⟨p.2.length, rfl⟩) (by decide)

/-- Witness for C3 at the concrete schema built from `kvGood`, queried at an
ASCII delimiter and at a non-ASCII character. -/
theorem C3_has_delimiter_iff_witness :
    psGood.has_delimiter ':' = (charIsAscii ':' && decide (':' ∈ (": ,").data)) ∧
    psGood.has_delimiter '€' = (charIsAscii '€' && decide ('€' ∈ (": ,").data)) :=
  ⟨C3_has_delimiter_iff lenParse kvGood psGood ": ," (by rfl) rfl ':',
   C3_has_delimiter_iff lenParse kvGood psGood ": ," (by rfl) rfl '€'⟩

/-- Witness for C4 at three concrete documents, one per missing key. -/
theorem C4_missing_key_witness :
    load_from_kv_pairs lenParse kvNoTs = Except.error (Error.MissingSchemaKey "timestamp") ∧
    load_from_kv_pairs lenParse kvNoVar = Except.error (Error.MissingSchemaKey "variables") ∧
    load_from_kv_pairs lenParse kvNoDelim =
      Except.error (Error.MissingSchemaKey "delimiters") :=
  C4_missing_key lenParse kvNoTs kvNoVar kvNoDelim ["T1"] [] [] rfl rfl
    (fun s _ => ⟨s.length, rfl⟩) rfl rfl (fun s _ => ⟨s.length, rfl⟩) rfl
    (fun p _ => ⟨p.2.length, rfl⟩) rfl

/-- Witness for C5 at four concrete documents, one per shape mismatch. -/
theorem C5_invalid_shape_witness :
    load_from_kv_pairs lenParse kvBadTsShape = Except.error Error.InvalidSchema ∧
    load_from_kv_pairs lenParse kvBadTsElem = Except.error Error.InvalidSchema ∧
    load_from_kv_pairs lenParse kvBadVarPair = Except.error Error.InvalidSchema ∧
    load_from_kv_pairs lenParse kvBadDelims = Except.error Error.InvalidSchema :=
  C5_invalid_shape lenParse kvBadTsShape kvBadTsElem kvBadVarPair kvBadDelims
    (Value.string "x") ["T1"] (Value.number 5) [] [] []
    (Value.string "ip") (Value.number 123) [] [] [] (Value.number 1)
    rfl rfl rfl (fun s _ => ⟨s.length, rfl⟩) rfl rfl (fun s _ => ⟨s.length, rfl⟩)
    rfl (fun p _ => ⟨p.2.length, rfl⟩) rfl rfl (fun s _ => ⟨s.length, rfl⟩) rfl
    (fun p _ => ⟨p.2.length, rfl⟩) rfl rfl

/-- Witness for C6 at a concrete document whose delimiter string holds a
euro sign. -/
theorem C6_non_ascii_delimiter_witness :
    load_from_kv_pairs lenParse kvNonAscii = Except.error Error.NoneASCIICharacters :=
  C6_non_ascii_delimiter lenParse kvNonAscii [] [] ",€" rfl
    (fun s _ => ⟨s.length, rfl⟩) rfl (fun p _ => ⟨p.2.length, rfl⟩) rfl (by decide)

/-- Witness for C8 at a concrete document with an empty delimiter string. -/
theorem C8_empty_delimiter_string_witness :
    ∃ ps : ParsedSchema ℕ,
      load_from_kv_pairs lenParse kvEmptyDelim = Except.ok ps ∧
      ps.delimiters = ∅ ∧
      ∀ c : Char, ps.has_delimiter c = false :=
  C8_empty_delimiter_string lenParse kvEmptyDelim ["T1"] [("ip", "P1")] rfl
    (fun s _ => ⟨s.length, rfl⟩) rfl (fun p _ => ⟨p.2.length, rfl⟩) rfl

/-- Witness for C9 at a concrete document with two extra keys. -/
theorem C9_extra_keys_ignored_witness :
    ∃ ps : ParsedSchema ℕ,
      load_from_kv_pairs lenParse kvExtra = Except.ok ps ∧
      load_from_kv_pairs lenParse (kvExtra.filter requiredKey) = Except.ok ps :=
  C9_extra_keys_ignored lenParse kvExtra ["T1"] [("ip", "P1")] "," rfl rfl rfl
    (fun s _ => ⟨s.length, rfl⟩) (fun p _ => ⟨p.2.length, rfl⟩) (by decide)

/-- Witness for C10 at concrete documents with an empty timestamps sequence
and an empty variables mapping. -/
theorem C10_empty_sections_witness :
    (∃ ps : ParsedSchema ℕ,
      load_from_kv_pairs lenParse kvEmptyTs = Except.ok ps ∧
      ps.schemas.length = [("ip", "P1")].length ∧
      ∀ e ∈ ps.schemas, ∃ v : VarSchema ℕ, e = Schema.Var v) ∧
    (∃ ps : ParsedSchema ℕ,
      load_from_kv_pairs lenParse kvEmptyVars = Except.ok ps ∧
      ps.schemas.length = ["T1"].length ∧
      ∀ e ∈ ps.schemas, ∃ t : TimestampSchema ℕ, e = Schema.Timestamp t) :=
  C10_empty_sections lenParse kvEmptyTs kvEmptyVars [("ip", "P1")] ["T1"] "," ","
    rfl rfl (fun p _ => ⟨p.2.length, rfl⟩) rfl (by decide)
    rfl (fun s _ => ⟨s.length, rfl⟩) rfl rfl (by decide)

/-- Witness for C7 at the concrete document `kvGood`. -/
theorem C7_round_trip_witness :
    ∃ ps : ParsedSchema ℕ,
      load_from_kv_pairs lenParse kvGood = Except.ok ps ∧
      ps.schemas.map Schema.patternOf = ["T1", "T2"] ++ [("ip", "P1")].map Prod.snd ∧
      ∀ e ∈ ps.schemas, entryParsed lenParse e :=
  C7_round_trip lenParse kvGood ["T1", "T2"] [("ip", "P1")] ": ," rfl rfl rfl
    (fun s _ => ⟨s.length, rfl⟩) (fun p _ => ⟨p.2.length, rfl⟩) (by decide)

end LogSurgeon
